import Mathlib

/-!
Shallow embedding of the GigaSpeech CTC training recipe
(recipes/GigaSpeech/ASR/CTC/train_with_wav2vec.py) and proofs about it.

The recipe is glue code over the speechbrain framework: a Brain subclass
with lifecycle callbacks (compute_forward, compute_objectives, fit_batch,
on_stage_start, on_stage_end, init_optimizers) and a dataset adapter
(dataio_prepare with the inner shard_extractor).  Neural modules,
schedulers, optimizers and the CTC decoder are opaque framework objects;
they are embedded as abstract function parameters.  Batches of tensors
are embedded as lists; relative length tensors as lists of rationals.
Python exceptions (KeyError from the label encoder, UnicodeDecodeError,
audio decode failures) are embedded as Option, with none for a raised
exception.  Side effects performed by a callback (learning-rate updates
on optimizers, checkpoint saves, log records, file writes) are embedded
as an explicit list of Effect values returned by the callback.
-/

set_option autoImplicit false

universe u v w x y z

/-- The three lifecycle stages of a speechbrain Brain run
(sb.Stage.TRAIN / VALID / TEST). -/
inductive Stage where
  | TRAIN : Stage
  | VALID : Stage
  | TEST : Stage
deriving DecidableEq

/-- One append made to an ErrorRateStats accumulator:
the batch of utterance ids with the predicted and target word sequences
(wer_metric.append(ids, predicted_words, target_words)). -/
structure MetricBatch where
  ids : List String
  predicted : List (List String)
  targets : List (List String)
deriving DecidableEq

/-- An ErrorRateStats accumulator, embedded as the list of batches
appended to it since construction. -/
abbrev MetricStats := List MetricBatch

/-- The tokenizer attached to the brain (the label encoder):
decode_ndim maps a sequence of integer token ids back to label strings. -/
structure Tokenizer where
  decode_ndim : List Nat → List String

/-- The self.modules container of the ASR brain.  env_corrupt is optional
(hasattr check in the source); wav2vec2, enc and ctc_lin are opaque
neural modules, embedded as abstract functions on abstract tensor types
W (a waveform), F (features), X (encoded features), L (logits). -/
structure Modules (W : Type u) (F : Type v) (X : Type w) (L : Type x) where
  env_corrupt : Option (List W → List ℚ → List W)
  wav2vec2 : List W → F
  enc : F → X
  ctc_lin : X → L

/-- The hyperparameter fields of the ASR brain used by compute_forward and
compute_objectives.  augmentation is optional (hasattr check);
log_softmax, ctc_greedy_decode (sb.decoders) and ctc_cost are opaque
framework functions, P is the type of the log-probability tensor. -/
structure ASRHParams (W : Type u) (L : Type x) (P : Type y) where
  augmentation : Option (List W → List ℚ → List W)
  log_softmax : L → P
  blank_index : ℕ
  ctc_greedy_decode : P → List ℚ → ℕ → List (List ℕ)
  ctc_cost : P → List (List ℕ) → List ℚ → List ℚ → ℚ

variable {W : Type u} {F : Type v} {X : Type w} {L : Type x} {P : Type y}

/-- ASR.compute_forward: from the waveform batch to the output
log-probabilities.  During TRAIN, if env_corrupt exists the noisy copy is
concatenated (torch.cat on the batch dimension is list append) and the
lengths are doubled, then augmentation is applied to the waveforms if it
exists.  The forward pass is wav2vec2, enc, ctc_lin, log_softmax.  For a
non-TRAIN stage the greedy CTC decode of the log-probabilities is also
returned, otherwise p_tokens stays None. -/
def compute_forward (m : Modules W F X L) (hp : ASRHParams W L P)
    (stage : Stage) (wavs : List W) (wav_lens : List ℚ) :
    P × List ℚ × Option (List (List ℕ)) :=
  let step1 : List W × List ℚ :=
    if stage = Stage.TRAIN then
      let base : List W × List ℚ :=
        match m.env_corrupt with
        | some env_corrupt => (wavs ++ env_corrupt wavs wav_lens, wav_lens ++ wav_lens)
        | none => (wavs, wav_lens)
      match hp.augmentation with
      | some augmentation => (augmentation base.1 base.2, base.2)
      | none => base
    else (wavs, wav_lens)
  let feats := m.wav2vec2 step1.1
  let x := m.enc feats
  let logits := m.ctc_lin x
  let p_ctc := hp.log_softmax logits
  let p_tokens : Option (List (List ℕ)) :=
    if stage ≠ Stage.TRAIN then
      some (hp.ctc_greedy_decode p_ctc step1.2 hp.blank_index)
    else none
  (p_ctc, step1.2, p_tokens)

/-- The word sequence obtained from a token sequence in compute_objectives:
"".join(tokenizer.decode_ndim(seq)).split(" "). -/
def decode_words (tok : Tokenizer) (seq : List ℕ) : List String :=
  (String.join (tok.decode_ndim seq)).splitOn " "

/-- The truncation of a target token row to its true length in
compute_objectives: utt_tokens[:int(utt_len * utt_tokens.shape[0])],
where utt_len is the relative length stored by PaddedBatch. -/
def truncate_tokens (utt_tokens : List ℕ) (utt_len : ℚ) : List ℕ :=
  utt_tokens.take (utt_len * (utt_tokens.length : ℚ)).floor.toNat

/-- ASR.compute_objectives: the CTC loss given the predictions of
compute_forward.  During TRAIN with env_corrupt present, tokens and
tokens_lens are doubled to match the doubled waveform batch.  For a
non-TRAIN stage the predicted and target word sequences are appended to
the WER and CER accumulators; iterating over a None predicted_tokens
would raise, embedded as the none result. -/
def compute_objectives (m : Modules W F X L) (hp : ASRHParams W L P)
    (tok : Tokenizer) (stage : Stage)
    (predictions : P × List ℚ × Option (List (List ℕ)))
    (ids : List String) (tokens : List (List ℕ)) (tokens_lens : List ℚ)
    (wer_metric cer_metric : MetricStats) :
    Option (ℚ × MetricStats × MetricStats) :=
  let p_ctc := predictions.1
  let wav_lens := predictions.2.1
  let predicted_tokens := predictions.2.2
  let tt : List (List ℕ) × List ℚ :=
    if m.env_corrupt.isSome ∧ stage = Stage.TRAIN then
      (tokens ++ tokens, tokens_lens ++ tokens_lens)
    else (tokens, tokens_lens)
  let loss := hp.ctc_cost p_ctc tt.1 wav_lens tt.2
  if stage ≠ Stage.TRAIN then
    match predicted_tokens with
    | none => none
    | some pts =>
      let predicted_words := pts.map (decode_words tok)
      let target_words := (tt.1.zip tt.2).map fun p =>
        decode_words tok (truncate_tokens p.1 p.2)
      some (loss,
        wer_metric ++ [⟨ids, predicted_words, target_words⟩],
        cer_metric ++ [⟨ids, predicted_words, target_words⟩])
  else
    some (loss, wer_metric, cer_metric)

/-- The optimizer-visible training state of the brain: the parameters of
the wav2vec2 encoder and of the rest of the model, and the gradient
buffers of the two optimizers.  Parameter and gradient tensors are
abstract types. -/
structure OptimState (T : Type u) (G : Type v) where
  wav2vec_params : T
  model_params : T
  wav2vec_grad : G
  model_grad : G
deriving DecidableEq

/-- A PaddedBatch as seen by the brain callbacks: utterance ids, the
padded signal tensor with relative lengths (batch.sig) and the padded
token tensor with relative lengths (batch.tokens). -/
structure BatchInput (W : Type u) where
  ids : List String
  sig : List W
  sig_lens : List ℚ
  tokens : List (List ℕ)
  tokens_lens : List ℚ
deriving DecidableEq

/-- ASR.fit_batch: forward and objectives at stage TRAIN, loss.backward()
(embedded as the abstract gradient accumulators backward_wav2vec and
backward_model applied to the loss), then the two optimizer steps guarded
by check_gradients(loss), and finally zero_grad on both optimizers.
Returns the new optimizer state and the detached loss. -/
def fit_batch {T : Type z} {G : Type u}
    (m : Modules W F X L) (hp : ASRHParams W L P) (tok : Tokenizer)
    (wer_metric cer_metric : MetricStats)
    (backward_wav2vec backward_model : ℚ → G → G)
    (check_gradients : ℚ → Bool)
    (wav2vec_step model_step : T → G → T)
    (zero_grad : G)
    (batch : BatchInput W) (st : OptimState T G) :
    Option (OptimState T G × ℚ) :=
  match compute_objectives m hp tok Stage.TRAIN
      (compute_forward m hp Stage.TRAIN batch.sig batch.sig_lens) batch.ids
      batch.tokens batch.tokens_lens wer_metric cer_metric with
  | none => none
  | some res =>
    let loss := res.1
    let st1 : OptimState T G :=
      { st with
        wav2vec_grad := backward_wav2vec loss st.wav2vec_grad,
        model_grad := backward_model loss st.model_grad }
    let st2 : OptimState T G :=
      if check_gradients loss then
        { st1 with
          wav2vec_params := wav2vec_step st1.wav2vec_params st1.wav2vec_grad,
          model_params := model_step st1.model_params st1.model_grad }
      else st1
    let st3 : OptimState T G :=
      { st2 with wav2vec_grad := zero_grad, model_grad := zero_grad }
    some (st3, loss)

/-- The stage_stats dictionary built by on_stage_end: always the loss,
plus the CER and WER summaries for a non-TRAIN stage. -/
structure StageStatsRec where
  loss : ℚ
  cer : Option ℚ
  wer : Option ℚ
deriving DecidableEq

/-- The per-stage bookkeeping state of the brain: the stats remembered
from the last TRAIN stage and the two error-rate accumulators. -/
structure BrainState where
  train_stats : Option StageStatsRec
  wer_metric : MetricStats
  cer_metric : MetricStats
deriving DecidableEq

/-- A fresh ErrorRateStats accumulator as constructed by the framework
ErrorRateStats() call behind hparams.error_rate_computer and
hparams.cer_computer: it starts with no appended batches. -/
def error_rate_stats_init : MetricStats := []

/-- ASR.on_stage_start: at the beginning of each epoch, for a non-TRAIN
stage the CER and WER accumulators are re-created fresh via
hparams.cer_computer() and hparams.error_rate_computer(). -/
def on_stage_start (st : BrainState) (stage : Stage) : BrainState :=
  if stage ≠ Stage.TRAIN then
    { st with
      cer_metric := error_rate_stats_init,
      wer_metric := error_rate_stats_init }
  else st

/-- An externally visible side effect performed by on_stage_end:
sb.nnet.schedulers.update_learning_rate on a named optimizer,
a train_logger.log_stats record, checkpointer.save_and_keep_only with its
meta WER value and min_keys, or wer_metric.write_stats to a file path. -/
inductive Effect where
  | updateLR : String → ℚ → Effect
  | logStats : List (String × ℚ) → List (String × Option StageStatsRec) → Effect
  | saveAndKeepOnly : ℚ → List String → Effect
  | writeStats : String → MetricStats → Effect
deriving DecidableEq

/-- The hyperparameter fields used by on_stage_end.  The two schedulers
(hparams.lr_annealing_model and hparams.lr_annealing_wav2vec) map the
stage loss to the pair (old_lr, new_lr); summarize_error_rate is the
framework ErrorRateStats.summarize("error_rate"). -/
structure StageHParams where
  lr_annealing_model : ℚ → ℚ × ℚ
  lr_annealing_wav2vec : ℚ → ℚ × ℚ
  wer_file : String
  epoch_counter_current : ℚ
  summarize_error_rate : MetricStats → ℚ

/-- ASR.on_stage_end: stores the train stats on a TRAIN stage; on a VALID
stage calls both schedulers on the stage loss, updates both optimizers to
the new learning rates, logs, and saves a checkpoint keyed on the WER
summary with min_keys WER; on a TEST stage logs and writes the WER
statistics to hparams.wer_file. -/
def on_stage_end (hp : StageHParams) (st : BrainState) (stage : Stage)
    (stage_loss : ℚ) (epoch : ℚ) : BrainState × List Effect :=
  let stage_stats : StageStatsRec :=
    if stage = Stage.TRAIN then
      { loss := stage_loss, cer := none, wer := none }
    else
      { loss := stage_loss,
        cer := some (hp.summarize_error_rate st.cer_metric),
        wer := some (hp.summarize_error_rate st.wer_metric) }
  if stage = Stage.TRAIN then
    ({ st with train_stats := some stage_stats }, [])
  else if stage = Stage.VALID then
    let lrs_model := hp.lr_annealing_model stage_loss
    let lrs_wav2vec := hp.lr_annealing_wav2vec stage_loss
    (st,
     [Effect.updateLR "model_optimizer" lrs_model.2,
      Effect.updateLR "wav2vec_optimizer" lrs_wav2vec.2,
      Effect.logStats
        [("epoch", epoch), ("lr_model", lrs_model.1),
         ("lr_wav2vec", lrs_wav2vec.1)]
        [("train_stats", st.train_stats), ("valid_stats", some stage_stats)],
      Effect.saveAndKeepOnly (hp.summarize_error_rate st.wer_metric) ["WER"]])
  else
    (st,
     [Effect.logStats [("Epoch loaded", hp.epoch_counter_current)]
        [("test_stats", some stage_stats)],
      Effect.writeStats hp.wer_file st.wer_metric])

/-- A speechbrain Checkpointer, embedded as its list of named recoverable
objects (checkpointer.add_recoverable appends a name-object pair). -/
structure Checkpointer (Optm : Type u) where
  recoverables : List (String × Optm)
deriving DecidableEq

/-- ASR.init_optimizers: constructs the wav2vec optimizer from the
wav2vec2 module parameters and the model optimizer from the model
parameters, and, when a checkpointer is configured, registers both as
recoverables under the names wav2vec_opt and modelopt. -/
def init_optimizers {Pw : Type u} {Pm : Type v} {Optm : Type w}
    (wav2vec_opt_class : Pw → Optm) (model_opt_class : Pm → Optm)
    (wav2vec2_parameters : Pw) (model_parameters : Pm)
    (checkpointer : Option (Checkpointer Optm)) :
    Optm × Optm × Option (Checkpointer Optm) :=
  let wav2vec_optimizer := wav2vec_opt_class wav2vec2_parameters
  let model_optimizer := model_opt_class model_parameters
  match checkpointer with
  | some cp =>
    (wav2vec_optimizer, model_optimizer,
     some ⟨cp.recoverables ++
       [("wav2vec_opt", wav2vec_optimizer), ("modelopt", model_optimizer)]⟩)
  | none => (wav2vec_optimizer, model_optimizer, none)

/-- Sequential fallible map: the embedding of a Python loop that applies
a raising function to every element, where the first raised exception
aborts the whole computation. -/
def mapOrFail {α : Type u} {β : Type v} (f : α → Option β) :
    List α → Option (List β)
  | [] => some []
  | a :: as =>
    match f a with
    | none => none
    | some b => (mapOrFail f as).map (b :: ·)

/-- A speechbrain CategoricalEncoder, embedded as its label-to-index
mapping (an association list in insertion order). -/
structure CategoricalEncoder where
  lab2ind : List (String × ℕ)
deriving DecidableEq

/-- CategoricalEncoder lookup of one label; an absent label raises
KeyError in the framework, embedded as none. -/
def CategoricalEncoder.encode_label (e : CategoricalEncoder)
    (label : String) : Option ℕ :=
  (e.lab2ind.find? (fun p => p.1 == label)).map (·.2)

/-- CategoricalEncoder.encode_sequence: encodes every label of the list,
raising (none) on the first label absent from the mapping. -/
def CategoricalEncoder.encode_sequence (e : CategoricalEncoder)
    (x : List String) : Option (List ℕ) :=
  mapOrFail e.encode_label x

/-- CategoricalEncoder.load_or_create as called in dataio_prepare: if the
encoder file already exists its mapping is loaded from it; otherwise the
encoder is created and saved.  The call in the source passes only path
and special_labels - the from_didatasets, output_key and sequence_input
arguments are commented out - so the created mapping holds exactly the
special labels (the reserved blank at blank_index) and nothing derived
from the corpus.  Returns the encoder together with the file contents
after the call. -/
def load_or_create (file : Option (List (String × ℕ)))
    (special_labels : List (String × ℕ)) :
    CategoricalEncoder × List (String × ℕ) :=
  match file with
  | some m => (⟨m⟩, m)
  | none => (⟨special_labels⟩, special_labels)

/-- Whether a byte is a UTF-8 continuation byte (0x80-0xBF). -/
def contByte (c : ℕ) : Bool := 0x80 ≤ c && c ≤ 0xBF

/-- Strict UTF-8 decoding of a byte list, the embedding of Python
bytes.decode("utf-8") composed with list(...): rejects truncated
sequences, stray continuation bytes, overlong encodings, surrogate code
points and code points beyond U+10FFFF (UnicodeDecodeError is none). -/
def utf8Decode : List ℕ → Option (List Char)
  | [] => some []
  | b :: rest =>
    if b ≤ 0x7F then
      (utf8Decode rest).map (Char.ofNat b :: ·)
    else if 0xC2 ≤ b ∧ b ≤ 0xDF then
      match rest with
      | c1 :: rest1 =>
        if contByte c1 then
          (utf8Decode rest1).map
            (Char.ofNat ((b - 0xC0) * 0x40 + (c1 - 0x80)) :: ·)
        else none
      | [] => none
    else if 0xE0 ≤ b ∧ b ≤ 0xEF then
      match rest with
      | c1 :: c2 :: rest2 =>
        let lo1 := if b = 0xE0 then 0xA0 else 0x80
        let hi1 := if b = 0xED then 0x9F else 0xBF
        if (lo1 ≤ c1 ∧ c1 ≤ hi1) ∧ contByte c2 then
          (utf8Decode rest2).map
            (Char.ofNat ((b - 0xE0) * 0x1000 + (c1 - 0x80) * 0x40 +
              (c2 - 0x80)) :: ·)
        else none
      | _ => none
    else if 0xF0 ≤ b ∧ b ≤ 0xF4 then
      match rest with
      | c1 :: c2 :: c3 :: rest3 =>
        let lo1 := if b = 0xF0 then 0x90 else 0x80
        let hi1 := if b = 0xF4 then 0x8F else 0xBF
        if (lo1 ≤ c1 ∧ c1 ≤ hi1) ∧ contByte c2 ∧ contByte c3 then
          (utf8Decode rest3).map
            (Char.ofNat ((b - 0xF0) * 0x40000 + (c1 - 0x80) * 0x1000 +
              (c2 - 0x80) * 0x40 + (c3 - 0x80)) :: ·)
        else none
      | _ => none
    else none

/-- A raw webdataset record as yielded by the shard reader: the __key__
field, the audio file bytes under the wav field and the transcript bytes
under the text field. -/
structure RawRecord where
  key : String
  wav : List ℕ
  text : List ℕ
deriving DecidableEq

/-- The record produced by shard_extractor: utterance id, the mono
waveform (sig after the transpose and squeeze reshape) and the token id
tensor. -/
structure ExtractedRecord where
  id : String
  sig : List ℚ
  tokens : List ℕ
deriving DecidableEq

/-- The inner shard_extractor of dataio_prepare.  audio_decode is the
opaque torchaudio.load on the BytesIO of the wav bytes followed by the
transpose(0, 1).squeeze(1) reshape to a mono waveform; a decode failure
raises (none).  The text bytes are decoded as UTF-8 into a character
list, which is encoded into token ids by the shared label encoder; a
character absent from the encoder raises KeyError (none). -/
def shard_extractor (label_encoder : CategoricalEncoder)
    (audio_decode : List ℕ → Option (List ℚ))
    (input_dict : RawRecord) : Option ExtractedRecord :=
  match audio_decode input_dict.wav with
  | none => none
  | some sig =>
    match utf8Decode input_dict.text with
    | none => none
    | some chars =>
      let char_list := chars.map Char.toString
      match label_encoder.encode_sequence char_list with
      | none => none
      | some tokens_list =>
        some { id := input_dict.key, sig := sig, tokens := tokens_list }

/-- webdataset .batched(n, ..., partial false): groups the stream into
batches of exactly n records and drops the trailing records that do not
fill a complete batch. -/
def batchedExact {α : Type u} (n : ℕ) (l : List α) : List (List α) :=
  if _h : n = 0 ∨ l.length < n then []
  else l.take n :: batchedExact n (l.drop n)
termination_by l.length
decreasing_by
  simp only [List.length_drop]
  omega

/-- Right-pad a list to length n with the padding value (the framework
zero padding of a batch tensor). -/
def padTo {α : Type u} (n : ℕ) (pad : α) (l : List α) : List α :=
  l ++ List.replicate (n - l.length) pad

/-- speechbrain PaddedBatch collation: pads the sig and tokens fields of
the records to the longest element of the batch and stores relative
lengths. -/
structure PaddedBatchData where
  ids : List String
  sigs : List (List ℚ)
  sig_lens : List ℚ
  tokens : List (List ℕ)
  tokens_lens : List ℚ
deriving DecidableEq

/-- Collate a list of extracted records into a PaddedBatch. -/
def paddedBatch (items : List ExtractedRecord) : PaddedBatchData :=
  let maxSig := (items.map (fun r => r.sig.length)).foldr max 0
  let maxTok := (items.map (fun r => r.tokens.length)).foldr max 0
  { ids := items.map (fun r => r.id),
    sigs := items.map (fun r => padTo maxSig 0 r.sig),
    sig_lens := items.map (fun r => (r.sig.length : ℚ) / (maxSig : ℚ)),
    tokens := items.map (fun r => padTo maxTok 0 r.tokens),
    tokens_lens := items.map (fun r => (r.tokens.length : ℚ) / (maxTok : ℚ)) }

/-- One dataset pipeline of dataio_prepare:
data.map(shard_extractor).batched(batch_size, collation_fn PaddedBatch,
partial false) applied to the shuffled record stream. -/
def datasetPipeline (label_encoder : CategoricalEncoder)
    (audio_decode : List ℕ → Option (List ℚ))
    (batch_size : ℕ) (records : List RawRecord) :
    Option (List PaddedBatchData) :=
  (mapOrFail (shard_extractor label_encoder audio_decode) records).map
    (fun extracted => (batchedExact batch_size extracted).map paddedBatch)

/-- os.path.join on two components: an absolute second component wins,
otherwise the components are joined with a single separator. -/
def pathJoin (a b : String) : String :=
  if b.data.head? = some '/' then b
  else if a = "" then b
  else if a.data.getLast? = some '/' then a ++ b
  else a ++ "/" ++ b

/-- The hyperparameters consumed by dataio_prepare. -/
structure DataioHParams where
  batch_size : ℕ
  test_batch_size : ℕ
  blank_index : ℕ
  save_folder : String
deriving DecidableEq

/-- The values produced by dataio_prepare: the three batched datasets,
the label encoder, the encoder file path and the encoder file contents
after load_or_create. -/
structure PreparedData where
  train : Option (List PaddedBatchData)
  valid : Option (List PaddedBatchData)
  test : Option (List PaddedBatchData)
  label_encoder : CategoricalEncoder
  lab_enc_file : String
  saved_encoder_file : List (String × ℕ)

/-- dataio_prepare: builds the label encoder by load_or_create on
save_folder/label_encoder.txt with the blank special label, then maps
shard_extractor over each of the three shuffled record streams (the
webdataset shard reader and shuffle are upstream of this function and
are quantified in the theorems) and batches them: train and valid with
batch_size, test with test_batch_size, all with partial false.
existing_encoder_file is the state of the encoder file on disk before
the call (none when absent). -/
def dataio_prepare (hp : DataioHParams)
    (audio_decode : List ℕ → Option (List ℚ))
    (existing_encoder_file : Option (List (String × ℕ)))
    (train_records valid_records test_records : List RawRecord) :
    PreparedData :=
  let lab_enc_file := pathJoin hp.save_folder "label_encoder.txt"
  let special_labels : List (String × ℕ) := [("<blank>", hp.blank_index)]
  let le := load_or_create existing_encoder_file special_labels
  let label_encoder := le.1
  { train := datasetPipeline label_encoder audio_decode hp.batch_size
      train_records,
    valid := datasetPipeline label_encoder audio_decode hp.batch_size
      valid_records,
    test := datasetPipeline label_encoder audio_decode hp.test_batch_size
      test_records,
    label_encoder := label_encoder,
    lab_enc_file := lab_enc_file,
    saved_encoder_file := le.2 }

/-- The wer_file assignment performed by the main script right before
evaluation: hparams.wer_file = os.path.join(output_folder,
"wer_test.txt"). -/
def main_wer_file (output_folder : String) : String :=
  pathJoin output_folder "wer_test.txt"

/-- Every element of a successful mapOrFail result comes from applying
the function to some element of the input list. -/
theorem mapOrFail_mem {α : Type u} {β : Type v} (f : α → Option β) :
    ∀ (l : List α) (l' : List β), mapOrFail f l = some l' →
      ∀ y ∈ l', ∃ x, x ∈ l ∧ f x = some y := by
  intro l
  induction l with
  | nil =>
    intro l' h y hy
    simp [mapOrFail] at h
    subst h
    simp at hy
  | cons a as ih =>
    intro l' h y hy
    cases hfa : f a with
    | none => simp [mapOrFail, hfa] at h
    | some b =>
      cases hmf : mapOrFail f as with
      | none => simp [mapOrFail, hfa, hmf] at h
      | some bs =>
        simp [mapOrFail, hfa, hmf] at h
        subst h
        rcases List.mem_cons.mp hy with rfl | hy'
        · exact ⟨a, List.mem_cons_self a as, hfa⟩
        · obtain ⟨x, hx, hfx⟩ := ih bs hmf y hy'
          exact ⟨x, List.mem_cons_of_mem a hx, hfx⟩

/-- Every batch produced by batchedExact has exactly n elements, all
drawn from the input stream. -/
theorem batchedExact_mem {α : Type u} (n : ℕ) (l : List α) (b : List α)
    (hb : b ∈ batchedExact n l) : b.length = n ∧ ∀ x ∈ b, x ∈ l := by
  rw [batchedExact] at hb
  split at hb
  · simp at hb
  · rename_i h
    push_neg at h
    rcases List.mem_cons.mp hb with rfl | hb'
    · refine ⟨?_, fun x hx => List.mem_of_mem_take hx⟩
      rw [List.length_take]
      omega
    · obtain ⟨h1, h2⟩ := batchedExact_mem n (l.drop n) b hb'
      exact ⟨h1, fun x hx => List.drop_subset n l (h2 x hx)⟩
termination_by l.length
decreasing_by
  simp only [List.length_drop]
  omega

/-- The records surviving batchedExact are exactly the first
n * (length / n) records of the stream: the trailing ones that do not
fill a complete batch are dropped. -/
theorem batchedExact_flatten {α : Type u} (n : ℕ) (l : List α) :
    (batchedExact n l).flatten = l.take (n * (l.length / n)) := by
  rw [batchedExact]
  split
  · rename_i h
    rcases h with rfl | h
    · simp
    · rw [Nat.div_eq_of_lt h]
      simp
  · rename_i h
    push_neg at h
    rw [List.flatten_cons, batchedExact_flatten n (l.drop n), List.length_drop]
    have h1 : l.length / n = (l.length - n) / n + 1 :=
      Nat.div_eq_sub_div (Nat.pos_of_ne_zero h.1) h.2
    have h2 : n * ((l.length - n) / n + 1) = n + n * ((l.length - n) / n) := by
      ring
    rw [h1, h2, List.take_add]
termination_by l.length
decreasing_by
  simp only [List.length_drop]
  omega

/-- batchedExact on an empty stream yields no batches. -/
theorem batchedExact_nil {α : Type u} (n : ℕ) :
    batchedExact n ([] : List α) = [] := by
  rw [batchedExact, dif_pos]
  cases n with
  | zero => exact Or.inl rfl
  | succ k => exact Or.inr (Nat.succ_pos k)

/-- batchedExact with batch size one on a singleton stream. -/
theorem batchedExact_one_singleton {α : Type u} (x : α) :
    batchedExact 1 [x] = [[x]] := by
  rw [batchedExact, dif_neg (by simp)]
  simp [batchedExact_nil]

/-- Anatomy of a successful datasetPipeline run: the extracted records,
the shape of the batches, and the dropped trailing records. -/
theorem datasetPipeline_spec (enc : CategoricalEncoder)
    (ad : List ℕ → Option (List ℚ)) (bs : ℕ)
    (records : List RawRecord) (batches : List PaddedBatchData)
    (h : datasetPipeline enc ad bs records = some batches) :
    ∃ ex, mapOrFail (shard_extractor enc ad) records = some ex ∧
      batches = (batchedExact bs ex).map paddedBatch ∧
      (∀ b ∈ batches, b.ids.length = bs ∧ b.sigs.length = bs ∧
        b.tokens.length = bs) ∧
      (batchedExact bs ex).flatten = ex.take (bs * (ex.length / bs)) := by
  unfold datasetPipeline at h
  cases hmf : mapOrFail (shard_extractor enc ad) records with
  | none => rw [hmf] at h; simp at h
  | some ex =>
    rw [hmf] at h
    simp at h
    refine ⟨ex, rfl, h.symm, ?_, batchedExact_flatten bs ex⟩
    intro b hb
    rw [← h] at hb
    obtain ⟨chunk, hchunk, rfl⟩ := List.mem_map.mp hb
    have hc := batchedExact_mem bs ex chunk hchunk
    simp [paddedBatch, hc.1]

/-- Claim C2: for every call of on_stage_end at stage VALID, both
learning-rate schedulers are invoked on the stage loss, both optimizers
are updated to the new learning rates they return, and a checkpoint save
is triggered whose kept/best selection is keyed on the WER summary with
min_keys WER. -/
theorem on_stage_end_valid_anneals_and_checkpoints
    (hp : StageHParams) (st : BrainState) (stage_loss epoch : ℚ) :
    (on_stage_end hp st Stage.VALID stage_loss epoch).2 =
      [Effect.updateLR "model_optimizer" (hp.lr_annealing_model stage_loss).2,
       Effect.updateLR "wav2vec_optimizer"
         (hp.lr_annealing_wav2vec stage_loss).2,
       Effect.logStats
         [("epoch", epoch), ("lr_model", (hp.lr_annealing_model stage_loss).1),
          ("lr_wav2vec", (hp.lr_annealing_wav2vec stage_loss).1)]
         [("train_stats", st.train_stats),
          ("valid_stats", some
            { loss := stage_loss,
              cer := some (hp.summarize_error_rate st.cer_metric),
              wer := some (hp.summarize_error_rate st.wer_metric) })],
       Effect.saveAndKeepOnly (hp.summarize_error_rate st.wer_metric)
         ["WER"]] := by
  rfl

/-- Claim C5: for every call of on_stage_end at stage TEST, with the
wer_file set by the main script to output_folder/wer_test.txt before
evaluation, the accumulated per-utterance WER statistics are written to
that file. -/
theorem on_stage_end_test_writes_wer_file
    (hp : StageHParams) (output_folder : String) (st : BrainState)
    (stage_loss epoch : ℚ) :
    (on_stage_end { hp with wer_file := main_wer_file output_folder } st
        Stage.TEST stage_loss epoch).2 =
      [Effect.logStats [("Epoch loaded", hp.epoch_counter_current)]
         [("test_stats", some
           { loss := stage_loss,
             cer := some (hp.summarize_error_rate st.cer_metric),
             wer := some (hp.summarize_error_rate st.wer_metric) })],
       Effect.writeStats (pathJoin output_folder "wer_test.txt")
         st.wer_metric] := by
  rfl

/-- Claim C10: on_stage_start re-creates fresh, empty CER and WER
accumulators at the start of every non-TRAIN stage, whatever was
accumulated before, and leaves the state unchanged for a TRAIN stage. -/
theorem on_stage_start_fresh_metrics (st : BrainState) :
    (on_stage_start st Stage.VALID).cer_metric = [] ∧
    (on_stage_start st Stage.VALID).wer_metric = [] ∧
    (on_stage_start st Stage.TEST).cer_metric = [] ∧
    (on_stage_start st Stage.TEST).wer_metric = [] ∧
    on_stage_start st Stage.TRAIN = st := by
  exact ⟨rfl, rfl, rfl, rfl, rfl⟩

/-- Claim C6 counterexample: when the brain is constructed without a
checkpointer, init_optimizers still constructs both optimizers but
registers nothing, refuting the claim that registration happens whenever
the optimizers are constructed. -/
theorem init_optimizers_none_counterexample :
    (init_optimizers (fun p : ℕ => p + 1) (fun q : ℕ => q + 2) 1 2
        (none : Option (Checkpointer ℕ))).1 = 2 ∧
    (init_optimizers (fun p : ℕ => p + 1) (fun q : ℕ => q + 2) 1 2
        (none : Option (Checkpointer ℕ))).2.1 = 4 ∧
    ¬ ∃ cp : Checkpointer ℕ,
        (init_optimizers (fun p : ℕ => p + 1) (fun q : ℕ => q + 2) 1 2
          (none : Option (Checkpointer ℕ))).2.2 = some cp := by
  refine ⟨rfl, rfl, ?_⟩
  rintro ⟨cp, h⟩
  simp [init_optimizers] at h

/-- Claim C6 (amended): init_optimizers constructs exactly two optimizer
instances, one over the wav2vec2 parameters and one over the model
parameters, and when a checkpointer is configured (not None) it registers
both with it as the recoverables wav2vec_opt and modelopt. -/
theorem init_optimizers_registers_both
    {Pw : Type u} {Pm : Type v} {Optm : Type w}
    (wav2vec_opt_class : Pw → Optm) (model_opt_class : Pm → Optm)
    (wav2vec2_parameters : Pw) (model_parameters : Pm)
    (cp : Checkpointer Optm) :
    init_optimizers wav2vec_opt_class model_opt_class wav2vec2_parameters
        model_parameters (some cp) =
      (wav2vec_opt_class wav2vec2_parameters,
       model_opt_class model_parameters,
       some ⟨cp.recoverables ++
         [("wav2vec_opt", wav2vec_opt_class wav2vec2_parameters),
          ("modelopt", model_opt_class model_parameters)]⟩) := by
  rfl

/-- Claim C3: augmentation and noise concatenation happen in
compute_forward only at stage TRAIN: with env_corrupt present the noisy
copy is concatenated (doubling wavs and wav_lens) before the forward
pass, with augmentation present it is applied on top; compute_objectives
doubles tokens and tokens_lens exactly when env_corrupt is present at
stage TRAIN; at a non-TRAIN stage the forward pass consumes the original
waveforms and lengths unchanged. -/
theorem augment_and_corrupt_train_only
    (m : Modules W F X L) (hp : ASRHParams W L P) (tok : Tokenizer)
    (ec : List W → List ℚ → List W) (aug : List W → List ℚ → List W)
    (wavs : List W) (wav_lens : List ℚ)
    (p : P) (wl : List ℚ) (pt : Option (List (List ℕ)))
    (ids : List String) (tokens : List (List ℕ)) (tokens_lens : List ℚ)
    (wer cer : MetricStats) :
    (compute_forward { m with env_corrupt := some ec }
        { hp with augmentation := none } Stage.TRAIN wavs wav_lens =
      (hp.log_softmax (m.ctc_lin (m.enc
          (m.wav2vec2 (wavs ++ ec wavs wav_lens)))),
       wav_lens ++ wav_lens, none)) ∧
    (compute_forward { m with env_corrupt := some ec }
        { hp with augmentation := some aug } Stage.TRAIN wavs wav_lens =
      (hp.log_softmax (m.ctc_lin (m.enc
          (m.wav2vec2 (aug (wavs ++ ec wavs wav_lens)
            (wav_lens ++ wav_lens))))),
       wav_lens ++ wav_lens, none)) ∧
    (compute_forward { m with env_corrupt := none }
        { hp with augmentation := none } Stage.TRAIN wavs wav_lens =
      (hp.log_softmax (m.ctc_lin (m.enc (m.wav2vec2 wavs))),
       wav_lens, none)) ∧
    ((compute_forward m hp Stage.VALID wavs wav_lens).1 =
      hp.log_softmax (m.ctc_lin (m.enc (m.wav2vec2 wavs))) ∧
     (compute_forward m hp Stage.VALID wavs wav_lens).2.1 = wav_lens) ∧
    ((compute_forward m hp Stage.TEST wavs wav_lens).1 =
      hp.log_softmax (m.ctc_lin (m.enc (m.wav2vec2 wavs))) ∧
     (compute_forward m hp Stage.TEST wavs wav_lens).2.1 = wav_lens) ∧
    (compute_objectives { m with env_corrupt := some ec } hp tok
        Stage.TRAIN (p, wl, pt) ids tokens tokens_lens wer cer =
      some (hp.ctc_cost p (tokens ++ tokens) wl
              (tokens_lens ++ tokens_lens), wer, cer)) ∧
    (compute_objectives { m with env_corrupt := none } hp tok
        Stage.TRAIN (p, wl, pt) ids tokens tokens_lens wer cer =
      some (hp.ctc_cost p tokens wl tokens_lens, wer, cer)) := by
  exact ⟨rfl, rfl, rfl, ⟨rfl, rfl⟩, ⟨rfl, rfl⟩, rfl, rfl⟩

/-- Claim C4: at a non-TRAIN stage compute_forward returns the greedy CTC
decode of its own log-probabilities and compute_objectives appends the
decoded word sequences against the target word sequences to both the WER
and the CER accumulators; at stage TRAIN the decoded tokens are None and
the accumulators are returned untouched. -/
theorem decode_and_error_rates_nontrain_only
    (m : Modules W F X L) (hp : ASRHParams W L P) (tok : Tokenizer)
    (wavs : List W) (wav_lens : List ℚ)
    (p : P) (wl : List ℚ) (pts : List (List ℕ))
    (pt : Option (List (List ℕ)))
    (ids : List String) (tokens : List (List ℕ)) (tokens_lens : List ℚ)
    (wer cer : MetricStats) :
    ((compute_forward m hp Stage.VALID wavs wav_lens).2.2 =
      some (hp.ctc_greedy_decode
        (compute_forward m hp Stage.VALID wavs wav_lens).1
        (compute_forward m hp Stage.VALID wavs wav_lens).2.1
        hp.blank_index)) ∧
    ((compute_forward m hp Stage.TEST wavs wav_lens).2.2 =
      some (hp.ctc_greedy_decode
        (compute_forward m hp Stage.TEST wavs wav_lens).1
        (compute_forward m hp Stage.TEST wavs wav_lens).2.1
        hp.blank_index)) ∧
    ((compute_forward m hp Stage.TRAIN wavs wav_lens).2.2 = none) ∧
    (compute_objectives m hp tok Stage.VALID (p, wl, some pts) ids tokens
        tokens_lens wer cer =
      some (hp.ctc_cost p tokens wl tokens_lens,
        wer ++ [⟨ids, pts.map (decode_words tok),
          (tokens.zip tokens_lens).map fun q =>
            decode_words tok (truncate_tokens q.1 q.2)⟩],
        cer ++ [⟨ids, pts.map (decode_words tok),
          (tokens.zip tokens_lens).map fun q =>
            decode_words tok (truncate_tokens q.1 q.2)⟩])) ∧
    (compute_objectives m hp tok Stage.TEST (p, wl, some pts) ids tokens
        tokens_lens wer cer =
      some (hp.ctc_cost p tokens wl tokens_lens,
        wer ++ [⟨ids, pts.map (decode_words tok),
          (tokens.zip tokens_lens).map fun q =>
            decode_words tok (truncate_tokens q.1 q.2)⟩],
        cer ++ [⟨ids, pts.map (decode_words tok),
          (tokens.zip tokens_lens).map fun q =>
            decode_words tok (truncate_tokens q.1 q.2)⟩])) ∧
    ((compute_objectives m hp tok Stage.TRAIN (p, wl, pt) ids tokens
        tokens_lens wer cer).map (fun r => (r.2.1, r.2.2)) =
      some (wer, cer)) := by
  refine ⟨rfl, rfl, rfl, ?_, ?_, ?_⟩
  · simp [compute_objectives]
  · simp [compute_objectives]
  · simp [compute_objectives]

/-- Claim C1 (code bug): the label encoder of dataio_prepare is persisted
at save_folder/label_encoder.txt with the reserved blank at blank_index,
but its mapping is NOT built from the observed transcripts: the call to
load_or_create omits the corpus arguments (they are commented out in the
source), so on a fresh run the created vocabulary holds only the blank
label and shard_extractor fails on the very first transcript character.
Evaluated here on a fresh run (no encoder file) whose single training
record has transcript AB (UTF-8 bytes 65, 66). -/
theorem label_encoder_not_built_from_corpus :
    (dataio_prepare ⟨1, 1, 0, "save"⟩ (fun _ => some []) none
        [⟨"u1", [], [65, 66]⟩] [] []).label_encoder =
      ⟨[("<blank>", 0)]⟩ ∧
    (dataio_prepare ⟨1, 1, 0, "save"⟩ (fun _ => some []) none
        [⟨"u1", [], [65, 66]⟩] [] []).lab_enc_file =
      "save/label_encoder.txt" ∧
    utf8Decode [65, 66] = some ['A', 'B'] ∧
    CategoricalEncoder.encode_sequence ⟨[("<blank>", 0)]⟩ ["A", "B"] =
      none ∧
    (dataio_prepare ⟨1, 1, 0, "save"⟩ (fun _ => some []) none
        [⟨"u1", [], [65, 66]⟩] [] []).train = none := by
  exact ⟨rfl, rfl, rfl, rfl, rfl⟩

/-- Claim C8: in fit_batch the two optimizer steps are applied exactly
when check_gradients on the loss succeeds; when it fails the parameters
of both optimizers are unchanged by the batch, and in either case both
gradient buffers are zeroed after the batch. -/
theorem fit_batch_steps_only_on_check
    {T : Type z} {G : Type u}
    (m : Modules W F X L) (hp : ASRHParams W L P) (tok : Tokenizer)
    (wer cer : MetricStats)
    (backward_wav2vec backward_model : ℚ → G → G)
    (check_gradients : ℚ → Bool)
    (wav2vec_step model_step : T → G → T)
    (zero_grad : G)
    (batch : BatchInput W) (st : OptimState T G)
    (st' : OptimState T G) (loss : ℚ)
    (h : fit_batch m hp tok wer cer backward_wav2vec backward_model
        check_gradients wav2vec_step model_step zero_grad batch st =
      some (st', loss)) :
    st'.wav2vec_grad = zero_grad ∧ st'.model_grad = zero_grad ∧
    (check_gradients loss = false →
      st'.wav2vec_params = st.wav2vec_params ∧
      st'.model_params = st.model_params) ∧
    (check_gradients loss = true →
      st'.wav2vec_params =
        wav2vec_step st.wav2vec_params (backward_wav2vec loss st.wav2vec_grad) ∧
      st'.model_params =
        model_step st.model_params (backward_model loss st.model_grad)) := by
  unfold fit_batch at h
  rcases hobj : compute_objectives m hp tok Stage.TRAIN
      (compute_forward m hp Stage.TRAIN batch.sig batch.sig_lens)
      batch.ids batch.tokens batch.tokens_lens wer cer with _ | res
  · rw [hobj] at h
    simp at h
  · rw [hobj] at h
    simp at h
    obtain ⟨hst, hloss⟩ := h
    subst hst
    subst hloss
    cases hc : check_gradients res.1 with
    | false =>
      refine ⟨rfl, rfl, fun _ => ?_, fun hcontra => absurd hcontra (by simp)⟩
      constructor <;> simp
    | true =>
      refine ⟨rfl, rfl, fun hcontra => absurd hcontra (by simp), fun _ => ?_⟩
      constructor <;> simp

/-- Anatomy of a successful shard_extractor run: the audio bytes decode
to the signal, the transcript bytes decode as UTF-8 to the character
list, and the character list encodes through the label encoder to the
token ids. -/
theorem shard_extractor_spec (enc : CategoricalEncoder)
    (ad : List ℕ → Option (List ℚ)) (r : RawRecord) (it : ExtractedRecord)
    (h : shard_extractor enc ad r = some it) :
    ∃ sig chars, ad r.wav = some sig ∧ utf8Decode r.text = some chars ∧
      enc.encode_sequence (chars.map Char.toString) = some it.tokens ∧
      it.id = r.key ∧ it.sig = sig := by
  unfold shard_extractor at h
  split at h
  · exact absurd h (by simp)
  · rename_i sig had
    split at h
    · exact absurd h (by simp)
    · rename_i chars hu
      simp only [] at h
      split at h
      · exact absurd h (by simp)
      · rename_i tokens_list he
        simp at h
        subst h
        exact ⟨sig, chars, had, hu, he, rfl, rfl⟩

/-- Claim C7: the dataset adapter reads the (shuffled) shard stream and
every record of every batch it yields is obtained from a source record
by decoding its audio bytes, decoding its transcript bytes as UTF-8 into
a character list, and encoding that character list into token ids via
the shared label encoder, the records being grouped into padded batches
of the configured batch size. -/
theorem dataset_adapter_record_provenance
    (hp : DataioHParams) (ad : List ℕ → Option (List ℚ))
    (ef : Option (List (String × ℕ)))
    (train_shards shuffled : List (List RawRecord))
    (va te : List RawRecord)
    (batches : List PaddedBatchData)
    (hperm : shuffled.Perm train_shards)
    (h : (dataio_prepare hp ad ef shuffled.flatten va te).train =
      some batches) :
    ∀ b ∈ batches, ∃ items : List ExtractedRecord,
      b = paddedBatch items ∧ items.length = hp.batch_size ∧
      ∀ it ∈ items, ∃ r, r ∈ train_shards.flatten ∧
        shard_extractor
          (dataio_prepare hp ad ef shuffled.flatten va te).label_encoder
          ad r = some it ∧
        ∃ sig chars,
          ad r.wav = some sig ∧ utf8Decode r.text = some chars ∧
          ((dataio_prepare hp ad ef shuffled.flatten va
              te).label_encoder).encode_sequence
            (chars.map Char.toString) = some it.tokens ∧
          it.id = r.key ∧ it.sig = sig := by
  obtain ⟨ex, hm, hb, hlen, _⟩ :=
    datasetPipeline_spec _ ad hp.batch_size _ batches h
  intro b hb2
  rw [hb] at hb2
  obtain ⟨chunk, hchunk, rfl⟩ := List.mem_map.mp hb2
  have hc := batchedExact_mem hp.batch_size ex chunk hchunk
  refine ⟨chunk, rfl, hc.1, ?_⟩
  intro it hit
  obtain ⟨r, hr, hshard⟩ := mapOrFail_mem _ _ _ hm it (hc.2 it hit)
  have hshard' : shard_extractor
      (dataio_prepare hp ad ef shuffled.flatten va te).label_encoder
      ad r = some it := hshard
  exact ⟨r, (hperm.flatten.mem_iff).mp hr, hshard',
    shard_extractor_spec _ ad r it hshard'⟩

/-- Claim C9: the three dataset pipelines are batched without partial
batches, so every batch yielded by the train, validation and test
datasets holds exactly batch_size (respectively test_batch_size)
records, and the trailing records beyond the last complete batch are
dropped from the stream. -/
theorem dataio_batches_full_size
    (hp : DataioHParams) (ad : List ℕ → Option (List ℚ))
    (ef : Option (List (String × ℕ)))
    (tr va te : List RawRecord)
    (bt bv bte : List PaddedBatchData)
    (ht : (dataio_prepare hp ad ef tr va te).train = some bt)
    (hv : (dataio_prepare hp ad ef tr va te).valid = some bv)
    (hte : (dataio_prepare hp ad ef tr va te).test = some bte) :
    (∀ b ∈ bt, b.ids.length = hp.batch_size ∧
      b.sigs.length = hp.batch_size ∧ b.tokens.length = hp.batch_size) ∧
    (∀ b ∈ bv, b.ids.length = hp.batch_size ∧
      b.sigs.length = hp.batch_size ∧ b.tokens.length = hp.batch_size) ∧
    (∀ b ∈ bte, b.ids.length = hp.test_batch_size ∧
      b.sigs.length = hp.test_batch_size ∧
      b.tokens.length = hp.test_batch_size) ∧
    (∃ ex, mapOrFail (shard_extractor
        (dataio_prepare hp ad ef tr va te).label_encoder ad) tr =
          some ex ∧
      bt = (batchedExact hp.batch_size ex).map paddedBatch ∧
      (batchedExact hp.batch_size ex).flatten =
        ex.take (hp.batch_size * (ex.length / hp.batch_size))) := by
  obtain ⟨ex1, hm1, hb1, hl1, hd1⟩ :=
    datasetPipeline_spec _ ad hp.batch_size tr bt ht
  obtain ⟨ex2, hm2, hb2, hl2, hd2⟩ :=
    datasetPipeline_spec _ ad hp.batch_size va bv hv
  obtain ⟨ex3, hm3, hb3, hl3, hd3⟩ :=
    datasetPipeline_spec _ ad hp.test_batch_size te bte hte
  exact ⟨hl1, hl2, hl3, ex1, hm1, hb1, hd1⟩

/-- Witness for fit_batch_steps_only_on_check: a concrete batch over
trivial modules with a failing gradient check zeroes both gradient
buffers and leaves both parameter sets untouched. -/
theorem fit_batch_steps_only_on_check_witness :
    (fit_batch
        (⟨none, fun _ => (), fun _ => (), fun _ => ()⟩ :
          Modules Unit Unit Unit Unit)
        (⟨none, fun _ => (), 0, fun _ _ _ => [], fun _ _ _ _ => 0⟩ :
          ASRHParams Unit Unit Unit)
        ⟨fun _ => []⟩ [] [] (fun _ g => g + 1) (fun _ g => g + 2)
        (fun _ => false) (fun p g => p + g) (fun p g => p + g) 0
        ⟨[], [], [], [], []⟩ (⟨5, 7, 3, 4⟩ : OptimState ℤ ℤ) =
      some (⟨5, 7, 0, 0⟩, 0)) ∧
    ((⟨5, 7, 0, 0⟩ : OptimState ℤ ℤ).wav2vec_grad = 0 ∧
     (⟨5, 7, 0, 0⟩ : OptimState ℤ ℤ).model_grad = 0 ∧
     ((⟨5, 7, 0, 0⟩ : OptimState ℤ ℤ).wav2vec_params =
        (⟨5, 7, 3, 4⟩ : OptimState ℤ ℤ).wav2vec_params ∧
      (⟨5, 7, 0, 0⟩ : OptimState ℤ ℤ).model_params =
        (⟨5, 7, 3, 4⟩ : OptimState ℤ ℤ).model_params)) := by
  refine ⟨rfl, ?_⟩
  have h := fit_batch_steps_only_on_check
      (⟨none, fun _ => (), fun _ => (), fun _ => ()⟩ :
        Modules Unit Unit Unit Unit)
      (⟨none, fun _ => (), 0, fun _ _ _ => [], fun _ _ _ _ => 0⟩ :
        ASRHParams Unit Unit Unit)
      ⟨fun _ => []⟩ [] [] (fun _ g => g + 1) (fun _ g => g + 2)
      (fun _ => false) (fun p g => p + g) (fun p g => p + g) 0
      ⟨[], [], [], [], []⟩ (⟨5, 7, 3, 4⟩ : OptimState ℤ ℤ)
      (⟨5, 7, 0, 0⟩ : OptimState ℤ ℤ) (0 : ℚ) rfl
  exact ⟨h.1, h.2.1, h.2.2.1 rfl⟩

/-- Witness for dataio_batches_full_size: a concrete run with batch size
one, a single training record and empty validation and test streams. -/
theorem dataio_batches_full_size_witness :
    (∀ b ∈ [paddedBatch [(⟨"u1", [], [1]⟩ : ExtractedRecord)]],
      b.ids.length = 1 ∧ b.sigs.length = 1 ∧ b.tokens.length = 1) ∧
    (∀ b ∈ ([] : List PaddedBatchData),
      b.ids.length = 1 ∧ b.sigs.length = 1 ∧ b.tokens.length = 1) ∧
    (∀ b ∈ ([] : List PaddedBatchData),
      b.ids.length = 1 ∧ b.sigs.length = 1 ∧ b.tokens.length = 1) ∧
    (∃ ex, mapOrFail (shard_extractor
        (dataio_prepare ⟨1, 1, 0, "save"⟩ (fun _ => some [])
          (some [("<blank>", 0), ("A", 1)])
          [⟨"u1", [], [65]⟩] [] []).label_encoder (fun _ => some []))
        [⟨"u1", [], [65]⟩] = some ex ∧
      [paddedBatch [(⟨"u1", [], [1]⟩ : ExtractedRecord)]] =
        (batchedExact 1 ex).map paddedBatch ∧
      (batchedExact 1 ex).flatten = ex.take (1 * (ex.length / 1))) := by
  exact dataio_batches_full_size ⟨1, 1, 0, "save"⟩ (fun _ => some [])
    (some [("<blank>", 0), ("A", 1)]) [⟨"u1", [], [65]⟩] [] []
    [paddedBatch [⟨"u1", [], [1]⟩]] [] []
    (by show some ((batchedExact 1
          [(⟨"u1", [], [1]⟩ : ExtractedRecord)]).map paddedBatch) = _
        rw [batchedExact_one_singleton]
        rfl)
    (by show some ((batchedExact 1
          ([] : List ExtractedRecord)).map paddedBatch) = _
        rw [batchedExact_nil]
        rfl)
    (by show some ((batchedExact 1
          ([] : List ExtractedRecord)).map paddedBatch) = _
        rw [batchedExact_nil]
        rfl)

/-- Witness for dataset_adapter_record_provenance: a single shard with a
single record, shuffled by the identity permutation, flows through the
adapter into one full batch whose only item is the decoded and encoded
record. -/
theorem dataset_adapter_record_provenance_witness :
    ∃ items : List ExtractedRecord,
      paddedBatch [(⟨"u1", [], [1]⟩ : ExtractedRecord)] =
        paddedBatch items ∧
      items.length = 1 ∧
      ∀ it ∈ items, ∃ r : RawRecord,
        r ∈ [(⟨"u1", [], [65]⟩ : RawRecord)] ∧
        shard_extractor ⟨[("<blank>", 0), ("A", 1)]⟩
          (fun _ => some []) r = some it ∧
        ∃ sig chars, (some [] : Option (List ℚ)) = some sig ∧
          utf8Decode r.text = some chars ∧
          (CategoricalEncoder.mk
            [("<blank>", 0), ("A", 1)]).encode_sequence
            (chars.map Char.toString) = some it.tokens ∧
          it.id = r.key ∧ it.sig = sig := by
  exact dataset_adapter_record_provenance ⟨1, 1, 0, "save"⟩
    (fun _ => some []) (some [("<blank>", 0), ("A", 1)])
    [[⟨"u1", [], [65]⟩]] [[⟨"u1", [], [65]⟩]] [] []
    [paddedBatch [⟨"u1", [], [1]⟩]] (List.Perm.refl _)
    (by show some ((batchedExact 1
          [(⟨"u1", [], [1]⟩ : ExtractedRecord)]).map paddedBatch) = _
        rw [batchedExact_one_singleton]
        rfl)
    (paddedBatch [⟨"u1", [], [1]⟩]) (by simp)
